import Mathlib

/-!
Verification of the `target-spec` platform core (`src/target-spec/src/platform.rs`).

The file embeds the Rust data model shallowly:

* `BTreeSet<Cow<'static, str>>` is embedded as `Finset String`.  Rust's
  `BTreeSet` equality is extensional set equality and its iteration order is
  ascending, so a `Finset` together with `Finset.sort (· ≤ ·)` is a faithful
  image of the set and of its iterator.
* The `Triple` service lives in another file of the repository
  (`triple.rs`), which is not part of the provided sources; it is modelled
  from the spec, which treats it as an opaque classification service
  (builtin table, heuristic inference, custom triples).
* The build-time constants `CURRENT_TARGET` / `CURRENT_TARGET_FEATURES` are
  injected by a build script; `Platform::current` is therefore embedded as a
  function of those two constants.
-/

/-- Modelled from the spec: the provenance classification of a triple,
"exactly one of {builtin, heuristic, custom}" (`triple.rs` is not in the
provided sources). -/
inductive TripleProvenance where
  | builtin
  | heuristic
  | custom
deriving DecidableEq, Repr

/-- Modelled from the spec: a `Triple` value is "an immutable value with: a
stable triple string, one provenance classification, and (for custom triples
only) an optional serialized specification string" (`triple.rs` is not in the
provided sources). -/
structure Triple where
  str : String
  provenance : TripleProvenance
  custom_json : Option String
deriving DecidableEq, Repr

/-- Modelled from the spec: the builtin platform table shipped with the
evaluator ("a triple explicitly known to the platform database").  The spec
names `x86_64-unknown-linux-gnu` as builtin.  The general theorems below hold
for any contents of this table. -/
def builtinTriples : List String :=
  ["x86_64-unknown-linux-gnu", "aarch64-apple-darwin", "x86_64-pc-windows-msvc"]

/-- Modelled from the spec: the set of triple strings that are not builtin but
whose characteristics can be heuristically inferred from the string's
structure.  The spec names `armv5te-apple-darwin` as heuristically
classifiable.  The heuristic algorithm itself is out of scope of the core
("treated as an opaque `Triple` service"); the general theorems below hold for
any contents of this table. -/
def heuristicTriples : List String :=
  ["armv5te-apple-darwin"]

/-- Modelled from the spec: `Triple::new(str)` — classification with
heuristics allowed.  Builtin strings classify as builtin; otherwise, if the
string is heuristically inferable it classifies as heuristic; otherwise the
error carries the offending triple string. -/
def Triple.new (s : String) : Except String Triple :=
  if builtinTriples.contains s then .ok ⟨s, .builtin, none⟩
  else if heuristicTriples.contains s then .ok ⟨s, .heuristic, none⟩
  else .error s

/-- Modelled from the spec: `Triple::new_strict(str)` — classification with
heuristics disallowed; "only builtin triples succeed". -/
def Triple.new_strict (s : String) : Except String Triple :=
  if builtinTriples.contains s then .ok ⟨s, .builtin, none⟩
  else .error s

/-- Modelled from the spec: `Triple::as_str`, the stable triple string. -/
def Triple.as_str (t : Triple) : String :=
  t.str

/-- Modelled from the spec: `Triple::is_builtin`. -/
def Triple.is_builtin (t : Triple) : Bool :=
  t.provenance = .builtin

/-- Modelled from the spec: `Triple::is_heuristic`. -/
def Triple.is_heuristic (t : Triple) : Bool :=
  t.provenance = .heuristic

/-- Modelled from the spec: `Triple::is_custom`. -/
def Triple.is_custom (t : Triple) : Bool :=
  t.provenance = .custom

/-- Modelled from the spec: `Triple::is_standard` — "builtin and heuristic
triples are jointly standard". -/
def Triple.is_standard (t : Triple) : Bool :=
  t.is_builtin || t.is_heuristic

/-- The error enum of the crate, restricted to the variant reachable from the
standard-platform constructors.  `Error::UnknownPlatformTriple` wraps the
triple-service error, which (per the spec) carries the offending triple
string. -/
inductive Error where
  | UnknownPlatformTriple (triple_str : String)
deriving DecidableEq, Repr

/-- `TargetFeatures` from `platform.rs`: `Unknown`, `Features(BTreeSet)`, or
`All`. -/
inductive TargetFeatures where
  | Unknown
  | Features (features : Finset String)
  | All
deriving DecidableEq

/-- `TargetFeatures::features`: collects a sequence of names into the set
variant (`features.into_iter().map(|s| s.into()).collect()`). -/
def TargetFeatures.features (features : List String) : TargetFeatures :=
  .Features features.toFinset

/-- `TargetFeatures::none`: `Features(BTreeSet::new())`. -/
def TargetFeatures.none : TargetFeatures :=
  .Features ∅

/-- `TargetFeatures::matches`: `None` for `Unknown`,
`Some(features.contains(feature))` for `Features`, `Some(true)` for `All`. -/
def TargetFeatures.matches : TargetFeatures → String → Option Bool
  | .Unknown, _ => Option.none
  | .Features features, feature => some (decide (feature ∈ features))
  | .All, _ => some true

/-- `Platform` from `platform.rs`: a triple, a `TargetFeatures` oracle, and a
`BTreeSet` of flag strings. -/
structure Platform where
  triple : Triple
  target_features : TargetFeatures
  flags : Finset String
deriving DecidableEq

/-- `Platform::from_triple`: direct construction, flags start empty. -/
def Platform.from_triple (triple : Triple) (target_features : TargetFeatures) : Platform :=
  { triple := triple, target_features := target_features, flags := ∅ }

/-- `Platform::new`: resolves the triple via `Triple::new` (heuristics
allowed), wrapping a classification failure in `Error::UnknownPlatformTriple`. -/
def Platform.new (triple_str : String) (target_features : TargetFeatures) :
    Except Error Platform :=
  match Triple.new triple_str with
  | .error e => .error (.UnknownPlatformTriple e)
  | .ok triple => .ok (Platform.from_triple triple target_features)

/-- `Platform::new_strict`: resolves the triple via `Triple::new_strict`
(builtin table only), wrapping a classification failure in
`Error::UnknownPlatformTriple`. -/
def Platform.new_strict (triple_str : String) (target_features : TargetFeatures) :
    Except Error Platform :=
  match Triple.new_strict triple_str with
  | .error e => .error (.UnknownPlatformTriple e)
  | .ok triple => .ok (Platform.from_triple triple target_features)

/-- `Platform::current`, parametrised by the build-time-injected constants
`CURRENT_TARGET` and `CURRENT_TARGET_FEATURES` (these are generated by the
build script and are not in the provided sources; the spec directs that they
be treated as explicit given values).  The body follows `platform.rs` lines
72–80: `Triple::new(CURRENT_TARGET)` (heuristics allowed), features collected
from the constant list, flags empty. -/
def Platform.currentWith (CURRENT_TARGET : String) (CURRENT_TARGET_FEATURES : List String) :
    Except Error Platform :=
  match Triple.new CURRENT_TARGET with
  | .error e => .error (.UnknownPlatformTriple e)
  | .ok triple =>
      .ok { triple := triple,
            target_features := TargetFeatures.features CURRENT_TARGET_FEATURES,
            flags := ∅ }

/-- `Platform::add_flags`: `self.flags.extend(flags.into_iter().map(..))` —
each element of the iterator is inserted into the `BTreeSet`. -/
def Platform.add_flags (p : Platform) (flags : List String) : Platform :=
  { p with flags := flags.foldl (fun acc f => insert f acc) p.flags }

/-- `Platform::triple_str`: `self.triple.as_str()`. -/
def Platform.triple_str (p : Platform) : String :=
  p.triple.as_str

/-- `Platform::flags`: the `BTreeSet` iterator yields the flags in ascending
(lexicographic) order, embedded as the sorted list of the flag set. -/
def Platform.flagsList (p : Platform) : List String :=
  p.flags.sort (· ≤ ·)

/-- `Platform::has_flag`: `self.flags.contains(flag.as_ref())`. -/
def Platform.has_flag (p : Platform) (flag : String) : Bool :=
  decide (flag ∈ p.flags)

/-- `Platform::is_standard`: `self.triple.is_standard()`. -/
def Platform.is_standard (p : Platform) : Bool :=
  p.triple.is_standard

/-- `Platform::is_builtin`: `self.triple.is_builtin()`. -/
def Platform.is_builtin (p : Platform) : Bool :=
  p.triple.is_builtin

/-- `Platform::is_heuristic`: `self.triple.is_heuristic()`. -/
def Platform.is_heuristic (p : Platform) : Bool :=
  p.triple.is_heuristic

/-- `Platform::is_custom`: `self.triple.is_custom()`. -/
def Platform.is_custom (p : Platform) : Bool :=
  p.triple.is_custom

/-! ## Derived-`Ord` embedding

`Platform`, `TargetFeatures` and (per the spec) `Triple` derive Rust `Ord`,
which compares fields (respectively variants, then payloads) lexicographically
in declaration order.  `BTreeSet` compares as its ascending iterator,
lexicographically. -/

/-- Comparison on strings agreeing with the lexicographic order used by Rust
`str` comparison (Mathlib's `LinearOrder String` is lexicographic on
characters). -/
def cmpStr (a b : String) : Ordering :=
  if a < b then .lt else if a = b then .eq else .gt

/-- Comparison on naturals, used for variant discriminants. -/
def cmpNat (a b : Nat) : Ordering :=
  if a < b then .lt else if a = b then .eq else .gt

/-- Comparison on optional strings, as Rust derives for `Option`:
`None < Some`. -/
def cmpOptStr : Option String → Option String → Ordering
  | Option.none, Option.none => .eq
  | Option.none, some _ => .lt
  | some _, Option.none => .gt
  | some a, some b => cmpStr a b

/-- Lexicographic comparison of string lists, as Rust's `Iterator::cmp`
compares two `BTreeSet` iterators. -/
def cmpStrList : List String → List String → Ordering
  | [], [] => .eq
  | [], _ :: _ => .lt
  | _ :: _, [] => .gt
  | a :: as1, b :: bs1 => (cmpStr a b).then (cmpStrList as1 bs1)

/-- `BTreeSet<Cow<str>>` ordering: lexicographic over the ascending iterator. -/
def cmpFlagSet (a b : Finset String) : Ordering :=
  cmpStrList (a.sort (· ≤ ·)) (b.sort (· ≤ ·))

/-- Modelled from the spec: discriminant order of the provenance variants
(`triple.rs` is not in the provided sources; any fixed total order works for
the theorems below). -/
def TripleProvenance.idx : TripleProvenance → Nat
  | .builtin => 0
  | .heuristic => 1
  | .custom => 2

/-- Modelled from the spec: derived `Ord` on `Triple` — lexicographic over its
fields in declaration order (`triple.rs` is not in the provided sources). -/
def Triple.cmp (t u : Triple) : Ordering :=
  (cmpStr t.str u.str).then
    ((cmpNat t.provenance.idx u.provenance.idx).then
      (cmpOptStr t.custom_json u.custom_json))

/-- Variant discriminant of `TargetFeatures` in declaration order:
`Unknown < Features(_) < All`. -/
def TargetFeatures.idx : TargetFeatures → Nat
  | .Unknown => 0
  | .Features _ => 1
  | .All => 2

/-- Derived `Ord` on `TargetFeatures`: discriminant first, payloads within the
`Features` variant. -/
def TargetFeatures.cmp : TargetFeatures → TargetFeatures → Ordering
  | .Features a, .Features b => cmpFlagSet a b
  | a, b => cmpNat a.idx b.idx

/-- Derived `Ord` on `Platform`: lexicographic over `triple`,
`target_features`, `flags` in declaration order. -/
def Platform.cmp (p q : Platform) : Ordering :=
  (Triple.cmp p.triple q.triple).then
    ((TargetFeatures.cmp p.target_features q.target_features).then
      (cmpFlagSet p.flags q.flags))

/-- A concrete builtin triple (from the spec's example scenarios), used by the
concrete witnesses below. -/
def linuxTriple : Triple :=
  ⟨"x86_64-unknown-linux-gnu", .builtin, Option.none⟩

/-- A concrete platform with no flags added, used by the concrete witnesses
below. -/
def demoPlatform : Platform :=
  Platform.from_triple linuxTriple TargetFeatures.Unknown

/-! ## Helper lemmas -/

theorem foldl_insert_eq_union (l : List String) (s : Finset String) :
    l.foldl (fun acc f => insert f acc) s = s ∪ l.toFinset := by
  induction l generalizing s with
  | nil => simp
  | cons a l ih => simp [List.foldl, ih, Finset.insert_union, Finset.union_insert]

theorem add_flags_flags (p : Platform) (fs : List String) :
    (p.add_flags fs).flags = p.flags ∪ fs.toFinset := by
  simp [Platform.add_flags, foldl_insert_eq_union]

theorem add_flags_triple (p : Platform) (fs : List String) :
    (p.add_flags fs).triple = p.triple := rfl

theorem add_flags_target_features (p : Platform) (fs : List String) :
    (p.add_flags fs).target_features = p.target_features := rfl

theorem ordering_then_eq_iff (a b : Ordering) :
    a.then b = .eq ↔ a = .eq ∧ b = .eq := by
  cases a <;> simp [Ordering.then]

theorem ordering_then_of_ne (a b : Ordering) (h : a ≠ .eq) : a.then b = a := by
  cases a <;> simp_all [Ordering.then]

theorem cmpStr_eq_iff (a b : String) : cmpStr a b = .eq ↔ a = b := by
  unfold cmpStr
  split
  · constructor
    · intro h; exact absurd h (by simp)
    · intro h; subst h; simp_all
  · split <;> simp_all

theorem cmpNat_eq_iff (a b : Nat) : cmpNat a b = .eq ↔ a = b := by
  unfold cmpNat
  split
  · constructor
    · intro h; exact absurd h (by simp)
    · intro h; omega
  · split <;> simp_all

theorem cmpOptStr_eq_iff (a b : Option String) : cmpOptStr a b = .eq ↔ a = b := by
  cases a <;> cases b <;> simp [cmpOptStr, cmpStr_eq_iff]

theorem idx_inj (a b : TripleProvenance) (h : a.idx = b.idx) : a = b := by
  cases a <;> cases b <;> simp_all [TripleProvenance.idx]

theorem triple_cmp_eq_iff (t u : Triple) : Triple.cmp t u = .eq ↔ t = u := by
  unfold Triple.cmp
  rw [ordering_then_eq_iff, ordering_then_eq_iff, cmpStr_eq_iff, cmpNat_eq_iff,
    cmpOptStr_eq_iff]
  constructor
  · rintro ⟨h1, h2, h3⟩
    cases t; cases u
    simp only at h1 h2 h3
    subst h1; subst h3
    rw [idx_inj _ _ h2]
  · rintro rfl
    simp

theorem cmpStrList_eq_iff (l1 l2 : List String) : cmpStrList l1 l2 = .eq ↔ l1 = l2 := by
  induction l1 generalizing l2 with
  | nil => cases l2 <;> simp [cmpStrList]
  | cons a as1 ih =>
      cases l2 with
      | nil => simp [cmpStrList]
      | cons b bs1 =>
          simp [cmpStrList, ordering_then_eq_iff, cmpStr_eq_iff, ih]

theorem sort_inj (a b : Finset String)
    (h : a.sort (· ≤ ·) = b.sort (· ≤ ·)) : a = b := by
  have := congrArg List.toFinset h
  rwa [Finset.sort_toFinset, Finset.sort_toFinset] at this

theorem cmpFlagSet_eq_iff (a b : Finset String) : cmpFlagSet a b = .eq ↔ a = b := by
  unfold cmpFlagSet
  rw [cmpStrList_eq_iff]
  exact ⟨sort_inj a b, fun h => by rw [h]⟩

theorem tf_cmp_eq_iff (a b : TargetFeatures) : TargetFeatures.cmp a b = .eq ↔ a = b := by
  cases a <;> cases b <;>
    simp [TargetFeatures.cmp, TargetFeatures.idx, cmpNat, cmpFlagSet_eq_iff]

theorem add_flags_twice (p : Platform) (l : List String) :
    (p.add_flags l).add_flags l = p.add_flags l := by
  cases p with
  | mk t f s =>
      simp [Platform.add_flags, foldl_insert_eq_union, Finset.union_assoc,
        Finset.union_self]

theorem add_flags_perm (p : Platform) (l1 l2 : List String) (h : l1.Perm l2) :
    p.add_flags l1 = p.add_flags l2 := by
  cases p with
  | mk t f s =>
      simp [Platform.add_flags, foldl_insert_eq_union,
        List.toFinset_eq_of_perm _ _ h]

theorem new_ok_shape (ts : String) (f : TargetFeatures) (q : Platform)
    (h : Platform.new ts f = .ok q) :
    q.target_features = f ∧ q.flags = ∅ ∧ q.triple_str = ts := by
  unfold Platform.new Triple.new at h
  by_cases hb : builtinTriples.contains ts = true
  · rw [if_pos hb] at h
    injection h with h
    subst h
    exact ⟨rfl, rfl, rfl⟩
  · rw [if_neg hb] at h
    by_cases hh : heuristicTriples.contains ts = true
    · rw [if_pos hh] at h
      injection h with h
      subst h
      exact ⟨rfl, rfl, rfl⟩
    · rw [if_neg hh] at h
      exact Except.noConfusion h

theorem new_strict_ok_shape (ts : String) (f : TargetFeatures) (q : Platform)
    (h : Platform.new_strict ts f = .ok q) :
    q.target_features = f ∧ q.flags = ∅ ∧ q.triple_str = ts ∧
      q.triple.provenance = .builtin ∧ builtinTriples.contains ts = true := by
  unfold Platform.new_strict Triple.new_strict at h
  by_cases hb : builtinTriples.contains ts = true
  · rw [if_pos hb] at h
    injection h with h
    subst h
    exact ⟨rfl, rfl, rfl, rfl, hb⟩
  · rw [if_neg hb] at h
    exact Except.noConfusion h

theorem currentWith_ok_shape (ts : String) (fs : List String) (q : Platform)
    (h : Platform.currentWith ts fs = .ok q) :
    q.target_features = TargetFeatures.features fs ∧ q.flags = ∅ ∧
      (q.triple.provenance = .builtin ∨ q.triple.provenance = .heuristic) ∧
      (q.triple.provenance = .builtin ↔ builtinTriples.contains ts = true) := by
  unfold Platform.currentWith Triple.new at h
  by_cases hb : builtinTriples.contains ts = true
  · rw [if_pos hb] at h
    injection h with h
    subst h
    exact ⟨rfl, rfl, Or.inl rfl, Iff.intro (fun _ => hb) (fun _ => rfl)⟩
  · rw [if_neg hb] at h
    by_cases hh : heuristicTriples.contains ts = true
    · rw [if_pos hh] at h
      injection h with h
      subst h
      refine ⟨rfl, rfl, Or.inr rfl, Iff.intro (fun hc => absurd hc (by simp)) (fun hm => absurd hm hb)⟩
    · rw [if_neg hh] at h
      exact Except.noConfusion h

/-! ## Claim theorems -/

/-- Claim C1: for every target-features value and every feature-name string
(including the empty string), `matches` returns `None` on `Unknown`,
set-containment of the name on `Features(set)`, and `Some(true)` on `All`. -/
theorem c1_matches_cases (n : String) (s : Finset String) :
    TargetFeatures.Unknown.matches n = Option.none
    ∧ (TargetFeatures.Features s).matches n = some (decide (n ∈ s))
    ∧ TargetFeatures.All.matches n = some true :=
  ⟨rfl, rfl, rfl⟩

/-- Claim C10: `Platform::from_triple(t, f)` round-trips through the
accessors: `triple()` is `t`, `triple_str()` is `t`'s triple string,
`target_features()` is `f`, and `flags()` is the empty sequence. -/
theorem c10_from_triple_round_trip (t : Triple) (f : TargetFeatures) :
    (Platform.from_triple t f).triple = t
    ∧ (Platform.from_triple t f).triple_str = t.str
    ∧ (Platform.from_triple t f).target_features = f
    ∧ (Platform.from_triple t f).flagsList = [] :=
  ⟨rfl, rfl, rfl, by simp [Platform.flagsList, Platform.from_triple]⟩

/-- Claim C9: `add_flags` only grows the flag set and touches nothing else —
the new flag set is the union of the old set and the added collection (so
every previously present flag is still present), and `triple()`,
`triple_str()`, and `target_features()` are unchanged. -/
theorem c9_add_flags_frame (p : Platform) (fs : List String) :
    (p.add_flags fs).flags = p.flags ∪ fs.toFinset
    ∧ p.flags ⊆ (p.add_flags fs).flags
    ∧ (p.add_flags fs).triple = p.triple
    ∧ (p.add_flags fs).triple_str = p.triple_str
    ∧ (p.add_flags fs).target_features = p.target_features := by
  refine ⟨add_flags_flags p fs, ?_, rfl, rfl, rfl⟩
  rw [add_flags_flags]
  exact Finset.subset_union_left

/-- Claim C9 witness: the frame property evaluated at a concrete platform and
flag list. -/
theorem c9_add_flags_frame_witness :
    (demoPlatform.add_flags ["cargo_web"]).flags = demoPlatform.flags ∪ ["cargo_web"].toFinset
    ∧ (demoPlatform.add_flags ["cargo_web"]).triple = demoPlatform.triple :=
  ⟨(c9_add_flags_frame demoPlatform ["cargo_web"]).1,
   (c9_add_flags_frame demoPlatform ["cargo_web"]).2.2.1⟩

/-- Claim C7: `has_flag(name)` is exactly flag-set membership; every
constructor produces a platform with an empty flag set, on which `has_flag`
is `false` for every name; and after `add_flags([x])` on such a platform,
`has_flag(x)` is `true` and `flags()` yields exactly the one entry `x`. -/
theorem c7_has_flag_membership (p : Platform) (n : String) (t : Triple)
    (f : TargetFeatures) (ts : String) (ctfs : List String) (x : String) :
    (p.has_flag n = true ↔ n ∈ p.flags)
    ∧ (Platform.from_triple t f).has_flag n = false
    ∧ (∀ q, Platform.new ts f = .ok q → q.has_flag n = false)
    ∧ (∀ q, Platform.new_strict ts f = .ok q → q.has_flag n = false)
    ∧ (∀ q, Platform.currentWith ts ctfs = .ok q → q.has_flag n = false)
    ∧ ((Platform.from_triple t f).add_flags [x]).has_flag x = true
    ∧ ((Platform.from_triple t f).add_flags [x]).flagsList = [x] := by
  refine ⟨by simp [Platform.has_flag], by simp [Platform.has_flag, Platform.from_triple],
    ?_, ?_, ?_, ?_, ?_⟩
  · intro q hq
    simp [Platform.has_flag, (new_ok_shape ts f q hq).2.1]
  · intro q hq
    simp [Platform.has_flag, (new_strict_ok_shape ts f q hq).2.1]
  · intro q hq
    simp [Platform.has_flag, (currentWith_ok_shape ts ctfs q hq).2.1]
  · simp [Platform.has_flag, add_flags_flags, Platform.from_triple]
  · simp [Platform.flagsList, add_flags_flags, Platform.from_triple,
      Finset.sort_singleton]

/-- Claim C7 witness: the spec's `cargo_web` scenario at a concrete platform. -/
theorem c7_has_flag_membership_witness :
    demoPlatform.has_flag "cargo_web" = false
    ∧ (demoPlatform.add_flags ["cargo_web"]).has_flag "cargo_web" = true
    ∧ (demoPlatform.add_flags ["cargo_web"]).flagsList = ["cargo_web"]
    ∧ (∀ q, Platform.new "x86_64-unknown-linux-gnu" TargetFeatures.Unknown = .ok q →
        q.has_flag "cargo_web" = false) :=
  have h := c7_has_flag_membership demoPlatform "cargo_web" linuxTriple
    TargetFeatures.Unknown "x86_64-unknown-linux-gnu" [] "cargo_web"
  ⟨h.2.1, h.2.2.2.2.2.1, h.2.2.2.2.2.2, h.2.2.1⟩

/-- Claim C8: `TargetFeatures::features` collapses duplicates — the oracle
depends only on the set of distinct names — and on `features(["a","b","a"])`,
`matches` is determinate-true for `"a"` and `"b"` and determinate-false for
`"c"`. -/
theorem c8_features_dedup (l1 l2 : List String) (h : l1.toFinset = l2.toFinset) :
    TargetFeatures.features l1 = TargetFeatures.features l2
    ∧ (TargetFeatures.features ["a", "b", "a"]).matches "a" = some true
    ∧ (TargetFeatures.features ["a", "b", "a"]).matches "b" = some true
    ∧ (TargetFeatures.features ["a", "b", "a"]).matches "c" = some false :=
  ⟨by simp [TargetFeatures.features, h], by decide, by decide, by decide⟩

/-- Claim C8 witness: duplicate collapse evaluated on concrete lists. -/
theorem c8_features_dedup_witness :
    TargetFeatures.features ["a", "b", "a"] = TargetFeatures.features ["b", "a"]
    ∧ (TargetFeatures.features ["a", "b", "a"]).matches "c" = some false :=
  have h := c8_features_dedup ["a", "b", "a"] ["b", "a"] (by decide)
  ⟨h.1, h.2.2.2⟩

/-- Claim C3: whenever `Platform::new_strict(t, f)` succeeds, `Platform::new(t, f)`
also succeeds — with the very same platform — and that platform satisfies
`is_builtin() == true`. -/
theorem c3_strict_implies_new (t : String) (f : TargetFeatures) (p : Platform)
    (h : Platform.new_strict t f = .ok p) :
    Platform.new t f = .ok p ∧ p.is_builtin = true := by
  unfold Platform.new_strict Triple.new_strict at h
  by_cases hb : builtinTriples.contains t = true
  · rw [if_pos hb] at h
    injection h with h
    subst h
    constructor
    · unfold Platform.new Triple.new
      rw [if_pos hb]
    · rfl
  · rw [if_neg hb] at h
    exact Except.noConfusion h

/-- Claim C3 witness: evaluated at the builtin triple of the spec's example
scenario. -/
theorem c3_strict_implies_new_witness :
    Platform.new "x86_64-unknown-linux-gnu" TargetFeatures.Unknown = .ok demoPlatform
    ∧ demoPlatform.is_builtin = true :=
  c3_strict_implies_new "x86_64-unknown-linux-gnu" TargetFeatures.Unknown demoPlatform
    rfl

/-- Claim C6: when `Platform::new` rejects a triple string, the error is
`UnknownPlatformTriple` carrying that very string, and `Platform::new_strict`
rejects it with the same error; in the `Except` embedding a constructor that
fails returns no platform at all. -/
theorem c6_rejection_error (t : String) (f : TargetFeatures) (e : Error)
    (h : Platform.new t f = .error e) :
    e = .UnknownPlatformTriple t
    ∧ Platform.new_strict t f = .error (.UnknownPlatformTriple t) := by
  unfold Platform.new Triple.new at h
  by_cases hb : builtinTriples.contains t = true
  · rw [if_pos hb] at h
    exact Except.noConfusion h
  · rw [if_neg hb] at h
    by_cases hh : heuristicTriples.contains t = true
    · rw [if_pos hh] at h
      exact Except.noConfusion h
    · rw [if_neg hh] at h
      injection h with h
      subst h
      refine ⟨rfl, ?_⟩
      unfold Platform.new_strict Triple.new_strict
      rw [if_neg hb]

/-- Claim C6 witness: evaluated at the unclassifiable triple string `foo`. -/
theorem c6_rejection_error_witness :
    Platform.new_strict "foo" TargetFeatures.Unknown
      = .error (.UnknownPlatformTriple "foo") :=
  (c6_rejection_error "foo" TargetFeatures.Unknown (.UnknownPlatformTriple "foo")
    rfl).2

/-- Claim C2 counterexample: `Platform::current` resolves the build-time
triple with `Triple::new`, which allows heuristic inference.  With the
constant triple injected as `armv5te-apple-darwin` — per the spec not builtin
but heuristically classifiable — `current()` succeeds and the resulting
platform satisfies `is_heuristic() == true`, refuting the claim's universal
quantification over build-time-injected triple strings. -/
theorem c2_current_counterexample :
    Platform.currentWith "armv5te-apple-darwin" []
      = .ok { triple := ⟨"armv5te-apple-darwin", .heuristic, Option.none⟩,
              target_features := TargetFeatures.features [], flags := ∅ }
    ∧ Platform.is_heuristic
        { triple := ⟨"armv5te-apple-darwin", .heuristic, Option.none⟩,
          target_features := TargetFeatures.features [], flags := ∅ } = true := by
  exact ⟨rfl, rfl⟩

/-- Claim C2 amended: whenever `Platform::current()` succeeds the resulting
platform is standard, and it is non-heuristic exactly when the injected
triple string is in the builtin table (heuristic when the triple is
non-builtin but heuristically inferable). -/
theorem c2_current_amended (ts : String) (fs : List String) (p : Platform)
    (h : Platform.currentWith ts fs = .ok p) :
    p.is_standard = true
    ∧ (p.is_heuristic = false ↔ builtinTriples.contains ts = true) := by
  obtain ⟨-, -, hd, hiff⟩ := currentWith_ok_shape ts fs p h
  rcases hd with hprov | hprov
  · refine ⟨by simp [Platform.is_standard, Triple.is_standard, Triple.is_builtin, hprov], ?_⟩
    have hc := hiff.mp hprov
    simp [Platform.is_heuristic, Triple.is_heuristic, hprov]
    simpa using hc
  · refine ⟨by simp [Platform.is_standard, Triple.is_standard, Triple.is_heuristic, hprov], ?_⟩
    constructor
    · intro hfalse
      simp [Platform.is_heuristic, Triple.is_heuristic, hprov] at hfalse
    · intro hc
      have hb := hiff.mpr hc
      rw [hprov] at hb
      exact absurd hb (by simp)

/-- Claim C2 amended witness: evaluated at the builtin triple
`x86_64-unknown-linux-gnu` with a concrete feature list. -/
theorem c2_current_amended_witness :
    Platform.is_standard
      { triple := ⟨"x86_64-unknown-linux-gnu", .builtin, Option.none⟩,
        target_features := TargetFeatures.features ["sse2"], flags := ∅ } = true :=
  (c2_current_amended "x86_64-unknown-linux-gnu" ["sse2"]
    { triple := ⟨"x86_64-unknown-linux-gnu", .builtin, Option.none⟩,
      target_features := TargetFeatures.features ["sse2"], flags := ∅ }
    rfl).1

/-- Claim C4: `add_flags` is idempotent — adding a flag twice leaves
`flags()` and `has_flag` behavior identical to adding it once — and
order-insensitive: registering a collection of flags in any order yields the
same `flags()` iteration (which is always sorted, i.e. lexicographic) and the
same `has_flag` results. -/
theorem c4_add_flags_idempotent_order_insensitive (p : Platform) (x : String)
    (l1 l2 : List String) (hperm : l1.Perm l2) :
    (((p.add_flags [x]).add_flags [x]).flagsList = (p.add_flags [x]).flagsList
      ∧ ∀ y, ((p.add_flags [x]).add_flags [x]).has_flag y = (p.add_flags [x]).has_flag y)
    ∧ ((p.add_flags l1).flagsList = (p.add_flags l2).flagsList
      ∧ ∀ y, (p.add_flags l1).has_flag y = (p.add_flags l2).has_flag y)
    ∧ (p.add_flags l1).flagsList.Sorted (· ≤ ·) := by
  have h2 := add_flags_twice p [x]
  have hp := add_flags_perm p l1 l2 hperm
  exact ⟨⟨by rw [h2], fun y => by rw [h2]⟩, ⟨by rw [hp], fun y => by rw [hp]⟩,
    Finset.sort_sorted _ _⟩

/-- Claim C4 witness: idempotence and order-insensitivity evaluated at a
concrete platform with flags `a`, `b` registered in both orders. -/
theorem c4_add_flags_witness :
    (demoPlatform.add_flags ["a", "b"]).flagsList
      = (demoPlatform.add_flags ["b", "a"]).flagsList
    ∧ ((demoPlatform.add_flags ["a"]).add_flags ["a"]).flagsList
      = (demoPlatform.add_flags ["a"]).flagsList :=
  have h := c4_add_flags_idempotent_order_insensitive demoPlatform "a"
    ["a", "b"] ["b", "a"] (List.Perm.swap "b" "a" [])
  ⟨h.2.1.1, h.1.1⟩

/-- Claim C5: `Platform` equality is componentwise over triple,
target-feature oracle and flag set; the derived comparison is `eq` exactly on
equal platforms and is lexicographic over the three fields in declaration
order (an earlier field that compares unequal decides the result, equal
earlier fields defer to the next field); platforms built from the same triple
and features with the same flags added in any order are equal; and changing
any one of the three components breaks equality. -/
theorem c5_platform_eq_and_order (p q : Platform) (t : Triple) (f : TargetFeatures)
    (l1 l2 : List String) (hperm : l1.Perm l2) :
    (p = q ↔ p.triple = q.triple ∧ p.target_features = q.target_features
      ∧ p.flags = q.flags)
    ∧ (Platform.cmp p q = .eq ↔ p = q)
    ∧ (Triple.cmp p.triple q.triple ≠ .eq →
        Platform.cmp p q = Triple.cmp p.triple q.triple)
    ∧ (p.triple = q.triple →
        TargetFeatures.cmp p.target_features q.target_features ≠ .eq →
        Platform.cmp p q = TargetFeatures.cmp p.target_features q.target_features)
    ∧ (p.triple = q.triple → p.target_features = q.target_features →
        Platform.cmp p q = cmpFlagSet p.flags q.flags)
    ∧ (Platform.from_triple t f).add_flags l1 = (Platform.from_triple t f).add_flags l2
    ∧ ((p.triple ≠ q.triple ∨ p.target_features ≠ q.target_features
        ∨ p.flags ≠ q.flags) → p ≠ q) := by
  have hcomp : ∀ a b : Platform, a = b ↔ a.triple = b.triple
      ∧ a.target_features = b.target_features ∧ a.flags = b.flags := by
    intro a b
    cases a; cases b
    simp
  refine ⟨hcomp p q, ?_, ?_, ?_, ?_, add_flags_perm _ l1 l2 hperm, ?_⟩
  · unfold Platform.cmp
    rw [ordering_then_eq_iff, ordering_then_eq_iff, triple_cmp_eq_iff,
      tf_cmp_eq_iff, cmpFlagSet_eq_iff, hcomp p q]
  · intro hne
    unfold Platform.cmp
    exact ordering_then_of_ne _ _ hne
  · intro hteq hne
    unfold Platform.cmp
    rw [(triple_cmp_eq_iff _ _).mpr hteq]
    exact ordering_then_of_ne _ _ hne
  · intro hteq hfeq
    unfold Platform.cmp
    rw [(triple_cmp_eq_iff _ _).mpr hteq, (tf_cmp_eq_iff _ _).mpr hfeq]
    rfl
  · intro hd heq
    subst heq
    rcases hd with h | h | h <;> exact h rfl

/-- Claim C5 witness: equality under permuted flag registration and the
comparison-equality correspondence, at concrete platforms. -/
theorem c5_platform_eq_witness :
    (Platform.from_triple linuxTriple TargetFeatures.Unknown).add_flags ["a", "b"]
      = (Platform.from_triple linuxTriple TargetFeatures.Unknown).add_flags ["b", "a"]
    ∧ (Platform.cmp demoPlatform demoPlatform = .eq ↔ demoPlatform = demoPlatform) :=
  have h := c5_platform_eq_and_order demoPlatform demoPlatform linuxTriple
    TargetFeatures.Unknown ["a", "b"] ["b", "a"] (List.Perm.swap "b" "a" [])
  ⟨h.2.2.2.2.2.1, h.2.1⟩
